import Mathlib

/-!
Verification of the `paylogic/dogpile_filesystem` repository.

This file gives a shallow embedding, in Lean 4, of the parts of the
repository that the specification talks about, and proves or refutes the
frozen claims about them.  The repository contains three generations of
the same backend:

* `dogpile_filesystem/` — the package actually shipped by `setup.py`
  (`RawFSBackend`, `GenericFSBackend`, `RangedFileReentrantLock`,
  `ProcessLocalRegistry`, `registry._open_file`);
* `dogpile_cache_fs_backend/` — a legacy generation (`FSBackend`, its own
  `RangedFileReentrantLock`, `utils._key_to_offset`);
* `dogpile_cache_file_system_backend/` — the oldest generation.

Definitions below are translated from the Python source.  Machine
integers are modelled as `Nat`/`Int`; fallible code returns `Except` or
an explicit result inductive; the mutable object state of a lock is an
explicit record threaded through the functions.  Python `None` is
modelled by `Option` or by an explicit `PyVal.pynone` constructor where a
field can hold arbitrary Python values.
-/

/-! ## Association-list helpers

The values directory and the in-process registries are finite maps; we
model them as association lists.  `aupsert` models `os.rename` onto an
existing path (overwrite) and dict/registry insertion. -/

def alookup {κ α : Type} [DecidableEq κ] : List (κ × α) → κ → Option α
  | [], _ => none
  | (k', v) :: t, k => if k' = k then some v else alookup t k

def aremove {κ α : Type} [DecidableEq κ] (l : List (κ × α)) (k : κ) : List (κ × α) :=
  l.filter (fun p => if p.1 = k then false else true)

def aupsert {κ α : Type} [DecidableEq κ] (l : List (κ × α)) (k : κ) (v : α) : List (κ × α) :=
  (k, v) :: aremove l k

/-! ## The ranged reentrant lock

Translation of `dogpile_filesystem/locking.py` (the shipped class) and of
the legacy `dogpile_cache_fs_backend/locking.py` variant.  The
`threading.RLock` is modelled by an owner thread id plus a recursion
count.  Calls to `fcntl.lockf` are modelled by an outcome parameter (what
the kernel would answer for this byte range right now) together with a
log of the byte-range lock requests actually issued, so that theorems can
talk about *when* the OS lock is requested or released.  Per the `lockf`
contract, contention surfaces as sleeping for a blocking call and as an
`IOError` with `EAGAIN`/`EACCES` for a `LOCK_NB` call. -/

inductive Errno where
  | eagain
  | eacces
  | edeadlk
  | other
deriving DecidableEq

inductive PyErr where
  | valueError
  | runtimeError
  | assertionError
  | ioError (e : Errno)
deriving DecidableEq

inductive OsCall where
  | lockEx
  | unlock
deriving DecidableEq

/-- What the kernel would answer to a byte-range lock request issued right
now: granted, contended (another process holds the range), deadlock
detected, or some other failure. -/
inductive OsOutcome where
  | ok
  | contended
  | edeadlk
  | otherErr
deriving DecidableEq

/-- The mutable state of a `RangedFileReentrantLock` object
(`dogpile_filesystem/locking.py`): the constructor arguments, the
`threading.RLock` (owner + recursion count), the hold `_counter` (a
Python int, hence `Int`: the code can drive it to `-1`), the creator
`_pid`, and the modelled OS-level view (whether this object holds the
byte-range lock, and the log of `lockf` calls it has issued). -/
structure LockSt where
  file : Nat
  offset : Nat
  owner : Option Nat
  ownerCount : Nat
  counter : Int
  pid : Nat
  osLocked : Bool
  osCalls : List OsCall
deriving DecidableEq

/-- `RangedFileReentrantLock.__init__(file, offset)`: raises `ValueError`
if either argument is `None`, otherwise builds the object with a fresh
unlocked `RLock`, `_counter = 0` and `_pid = os.getpid()`. -/
def lockInit (file : Option Nat) (offset : Option Nat) (curPid : Nat) :
    Except PyErr LockSt :=
  match file with
  | none => .error .valueError
  | some f =>
    match offset with
    | none => .error .valueError
    | some o =>
      .ok { file := f, offset := o, owner := none, ownerCount := 0,
            counter := 0, pid := curPid, osLocked := false, osCalls := [] }

/-- Result of a call to `acquire`: it returns a boolean, raises, or — for
a blocking call whose mutex or `lockf` is contended — sleeps
(`blocked`). -/
inductive AcquireResult where
  | ret (b : Bool) (s : LockSt)
  | raised (e : PyErr) (s : LockSt)
  | blocked
deriving DecidableEq

/-- Helper: `self._thread_lock.release()` on the modelled `RLock`. -/
def threadRelease (s : LockSt) : LockSt :=
  if s.ownerCount ≤ 1 then { s with owner := none, ownerCount := 0 }
  else { s with ownerCount := s.ownerCount - 1 }

/-- `RangedFileReentrantLock.acquire(blocking)` of the shipped
`dogpile_filesystem/locking.py`:

1. `_assert_pid` — raises `RuntimeError` when `os.getpid()` differs from
   the creator pid;
2. `self._thread_lock.acquire(blocking)` — for a non-blocking call that
   fails, return `False`;
3. if `self._counter == 0`, call `lockf(file, LOCK_EX [| LOCK_NB], 1,
   offset)`; on `IOError` the thread lock is released, then
   `EACCES`/`EAGAIN` yield `False` and anything else is re-raised;
4. increment `_counter` and return `True`.

`tid` is the calling thread; `os` is what the kernel would answer if the
byte-range request is issued. -/
def lockAcquire (s : LockSt) (tid curPid : Nat) (blocking : Bool)
    (os : OsOutcome) : AcquireResult :=
  if curPid ≠ s.pid then .raised .runtimeError s
  else
    let canTakeThread := s.owner = none ∨ s.owner = some tid
    if ¬canTakeThread ∧ blocking then .blocked
    else if ¬canTakeThread then .ret false s
    else
      let s1 : LockSt := { s with owner := some tid, ownerCount := s.ownerCount + 1 }
      if s1.counter = 0 then
        let s2 : LockSt := { s1 with osCalls := s1.osCalls ++ [.lockEx] }
        match os, blocking with
        | .ok, _ =>
          .ret true { s2 with counter := s2.counter + 1, osLocked := true }
        | .contended, true => .blocked
        | .contended, false => .ret false (threadRelease s2)
        | .edeadlk, _ => .raised (.ioError .edeadlk) (threadRelease s2)
        | .otherErr, _ => .raised (.ioError .other) (threadRelease s2)
      else
        .ret true { s1 with counter := s1.counter + 1 }

/-- Result of a call to `release`. -/
inductive ReleaseResult where
  | ret (s : LockSt)
  | raised (e : PyErr) (s : LockSt)
deriving DecidableEq

/-- `RangedFileReentrantLock.release()` of the shipped
`dogpile_filesystem/locking.py`:

1. `_assert_pid`;
2. `self._counter -= 1` (the attribute is written first);
3. `assert self._counter >= 0` — on an unmatched release the assertion
   fires *after* the decrement, with the counter already at `-1`, and
   nothing further runs (in particular no `lockf(LOCK_UN)`);
4. if the counter is still positive, release the thread lock and return;
5. otherwise `lockf(file, LOCK_UN, 1, offset)` and, in a `finally`,
   release the thread lock.  (The unlock syscall is modelled as
   succeeding; the repository never handles a failure of it.) -/
def lockRelease (s : LockSt) (_tid curPid : Nat) : ReleaseResult :=
  if curPid ≠ s.pid then .raised .runtimeError s
  else
    let s1 : LockSt := { s with counter := s.counter - 1 }
    if s1.counter < 0 then .raised .assertionError s1
    else if s1.counter > 0 then .ret (threadRelease s1)
    else
      .ret (threadRelease
        { s1 with osCalls := s1.osCalls ++ [.unlock], osLocked := false })

/-- `RangedFileReentrantLock.acquire(blocking)` of the legacy
`dogpile_cache_fs_backend/locking.py`.  Differences from the shipped
version: there is no `_assert_pid`, and — crucially — the `except
IOError` branch does **not** release the thread lock before returning
`False` or re-raising. -/
def legacyLockAcquire (s : LockSt) (tid : Nat) (blocking : Bool)
    (os : OsOutcome) : AcquireResult :=
  let canTakeThread := s.owner = none ∨ s.owner = some tid
  if ¬canTakeThread ∧ blocking then .blocked
  else if ¬canTakeThread then .ret false s
  else
    let s1 : LockSt := { s with owner := some tid, ownerCount := s.ownerCount + 1 }
    if s1.counter = 0 then
      let s2 : LockSt := { s1 with osCalls := s1.osCalls ++ [.lockEx] }
      match os, blocking with
      | .ok, _ =>
        .ret true { s2 with counter := s2.counter + 1, osLocked := true }
      | .contended, true => .blocked
      | .contended, false => .ret false s2
      | .edeadlk, _ => .raised (.ioError .edeadlk) s2
      | .otherErr, _ => .raised (.ioError .other) s2
    else
      .ret true { s1 with counter := s1.counter + 1 }

/-- One uncontended blocking `acquire` by thread `tid` in the creator
process, projected to the resulting object state. -/
def stepAcq (tid : Nat) (s : LockSt) : LockSt :=
  match lockAcquire s tid s.pid true .ok with
  | .ret _ s' => s'
  | .raised _ s' => s'
  | .blocked => s

/-- One `release` by thread `tid` in the creator process, projected to
the resulting object state. -/
def stepRel (tid : Nat) (s : LockSt) : LockSt :=
  match lockRelease s tid s.pid with
  | .ret s' => s'
  | .raised _ s' => s'

/-- A lock object that is not held at all: fresh from the constructor, or
fully released. -/
def cleanLock (s : LockSt) : Prop :=
  s.owner = none ∧ s.ownerCount = 0 ∧ s.counter = 0 ∧ s.osLocked = false

/-- The state of a clean lock after thread `tid` has acquired it `n > 0`
times (blocking, uncontended): counter and `RLock` depth are `n`, the
byte-range lock is held and exactly one OS request was issued. -/
def heldState (s : LockSt) (tid n : Nat) : LockSt :=
  { s with owner := some tid, ownerCount := n, counter := (n : Int),
           osLocked := true, osCalls := s.osCalls ++ [.lockEx] }

/-! ## The per-process registries

Translation of `dogpile_filesystem/registry.py` together with
`ProcessLocalRegistry` from `dogpile_cache_fs_backend/utils.py` (the
shipped package imports an identical class from its own `utils`; the
claims cite the copy under `src/`).  The module holds

* `_registry : dict` — a plain module-level cache inside `_open_file`,
  mapping a path to the file object opened for it (kept so the
  interpreter never garbage-collects and thereby closes the file);
* `file_lock = ProcessLocalRegistry(creator=_open_file)` — lock-file
  handles keyed by path;
* `locks = ProcessLocalRegistry(creator=_lock_creator)` — lock objects
  keyed by `(path, offset)`.

A `ProcessLocalRegistry` stores a pid and a `NameRegistry` (here: an
association list); `get` first compares the stored pid with
`os.getpid()` and, on mismatch, replaces both with the current pid and a
new empty registry, then serves the lookup, invoking the creator on a
miss.  File objects are represented by numeric handles: `open` hands out
`nextHandle` and bumps it.  Lock objects are represented by `LockObj`
records carrying a creation serial number, so that "the same object" is
expressible.  `fork` copies the whole state and only changes the current
pid, exactly what `os.fork()` does to this module's globals. -/

structure LockObj where
  lockId : Nat
  file : Nat
  offset : Nat
  pid : Nat
deriving DecidableEq

structure RegState where
  curPid : Nat
  nextHandle : Nat
  modRegistry : List (String × Nat)
  flPid : Option Nat
  flMap : List (String × Nat)
  lkPid : Option Nat
  lkMap : List ((String × Nat) × LockObj)
  nextLockId : Nat
deriving DecidableEq

/-- The module state right after `import`: both `ProcessLocalRegistry`
instances have `_pid = None` and no registry, and `_registry` is empty. -/
def regInit (pid : Nat) : RegState :=
  { curPid := pid, nextHandle := 0, modRegistry := [], flPid := none,
    flMap := [], lkPid := none, lkMap := [], nextLockId := 0 }

/-- `registry._open_file(path)`: return the cached file object for
`path` from the module-level `_registry`, opening (a fresh handle) and
caching it only on a miss. -/
def openFile (path : String) (s : RegState) : Nat × RegState :=
  match alookup s.modRegistry path with
  | some h => (h, s)
  | none =>
    (s.nextHandle,
     { s with nextHandle := s.nextHandle + 1,
              modRegistry := aupsert s.modRegistry path s.nextHandle })

/-- `file_lock.get(path)`: `ProcessLocalRegistry.get` with creator
`_open_file`. -/
def fileLockGet (path : String) (s : RegState) : Nat × RegState :=
  let s0 := if s.flPid ≠ some s.curPid
            then { s with flPid := some s.curPid, flMap := [] }
            else s
  match alookup s0.flMap path with
  | some h => (h, s0)
  | none =>
    let (h, s1) := openFile path s0
    (h, { s1 with flMap := aupsert s1.flMap path h })

/-- `registry._lock_creator((path, offset))`: fetch the (interned) file
handle for `path` and build a fresh `RangedFileReentrantLock` around it,
recording `os.getpid()` in the object. -/
def lockCreator (path : String) (offset : Nat) (s : RegState) :
    LockObj × RegState :=
  let (h, s1) := fileLockGet path s
  ({ lockId := s1.nextLockId, file := h, offset := offset, pid := s1.curPid },
   { s1 with nextLockId := s1.nextLockId + 1 })

/-- `locks.get((path, offset))`: `ProcessLocalRegistry.get` with creator
`_lock_creator`. -/
def locksGet (path : String) (offset : Nat) (s : RegState) :
    LockObj × RegState :=
  let s0 := if s.lkPid ≠ some s.curPid
            then { s with lkPid := some s.curPid, lkMap := [] }
            else s
  match alookup s0.lkMap (path, offset) with
  | some l => (l, s0)
  | none =>
    let (l, s1) := lockCreator path offset s0
    (l, { s1 with lkMap := aupsert s1.lkMap (path, offset) l })

/-- `os.fork()` as seen by the child: every module-level object is
inherited unchanged, only `os.getpid()` now answers differently. -/
def regFork (childPid : Nat) (s : RegState) : RegState :=
  { s with curPid := childPid }

/-- A concrete registry state as inherited by a child forked (new pid 2)
from a parent (pid 1) that had looked up the lock for
`("rw.lock", offset 5)` once: the parent's open handle 0 sits in the
module-level `_registry` cache and in both per-process maps, which still
record pid 1. -/
def regChild : RegState :=
  { curPid := 2, nextHandle := 1, modRegistry := [("rw.lock", 0)],
    flPid := some 1, flMap := [("rw.lock", 0)], lkPid := some 1,
    lkMap := [(("rw.lock", 5), ⟨0, 0, 5, 1⟩)], nextLockId := 1 }

/-! ## The on-disk store and the backends

Translation of `dogpile_filesystem/backend.py` (shipped: `RawFSBackend`,
`GenericFSBackend`) and of the metadata handling of the legacy
`dogpile_cache_fs_backend/backend.py` (`FSBackend`).

The values directory is a pair of association lists (payload files and
metadata files, keyed by the mangled key).  Timestamps are `Int`
(`time.time()` values; the shipped `utils._get_last_modified` answers the
epoch-0 sentinel when `stat` failed, modelled by the file being absent
from the listing).  Payload bytes are `List Nat`.  `pickle` of a cached
value is the external serializer: `GenericFSBackend` is parameterised
over `encode`/`decode`.  Every filesystem primitive that the Python code
calls inside `get` is modelled as a function threading the directory
state, so that "get leaves the files unchanged" is a statement about the
translation, not an axiom. -/

/-- An opaque Python value, as far as the backend is concerned.  `pynone`
is Python `None`. -/
inductive PyVal where
  | pynone
  | pyint (n : Int)
  | pystr (s : String)
  | pyobj (tag : Nat)
deriving DecidableEq

/-- Shipped `Metadata = namedtuple('Metadata', ['original_file_offset',
'dogpile_metadata'])` (`dogpile_filesystem/backend.py`, line 25).  The
offset is always `payload.tell()`, an integer. -/
structure Metadata where
  original_file_offset : Nat
  dogpile_metadata : PyVal
deriving DecidableEq

/-- Legacy `Metadata = namedtuple('Metadata', ['type',
'original_file_offset', 'dogpile_metadata'])`
(`dogpile_cache_fs_backend/backend.py`, line 28). -/
structure MetadataFS where
  type : String
  original_file_offset : Option Nat
  dogpile_metadata : PyVal
deriving DecidableEq

/-- The pickled record of a shipped `Metadata`, as a field map (what a
reader of the `.metadata` file finds). -/
def Metadata.toRecord (m : Metadata) : List (String × PyVal) :=
  [("original_file_offset", .pyint m.original_file_offset),
   ("dogpile_metadata", m.dogpile_metadata)]

/-- The pickled record of a legacy `MetadataFS`. -/
def MetadataFS.toRecord (m : MetadataFS) : List (String × PyVal) :=
  [("type", .pystr m.type),
   ("original_file_offset",
     match m.original_file_offset with
     | none => .pynone
     | some n => .pyint n),
   ("dogpile_metadata", m.dogpile_metadata)]

/-- The claim's reading of a metadata record: it carries a kind field
(the source calls it `type`) valued `value` or `file`. -/
def recordHasKindField (r : List (String × PyVal)) : Prop :=
  ∃ v, (alookup r "type" = some v ∨ alookup r "kind" = some v) ∧
       (v = .pystr "value" ∨ v = .pystr "file")

structure PayloadFile where
  content : List Nat
  mtime : Int
deriving DecidableEq

structure MetaFile where
  meta : Metadata
  size : Nat
  mtime : Int
deriving DecidableEq

/-- The `values` directory. -/
structure FS where
  payloads : List (String × PayloadFile)
  metas : List (String × MetaFile)
deriving DecidableEq

def FS.empty : FS := ⟨[], []⟩

/-! Filesystem primitives used by the backend, each threading the
directory state.  `os.path.exists`, `os.stat` and `io.open`/`read` do not
change the directory; `os.remove` and the rename-into-place of `set`
do. -/

def osExistsPayload (key : String) (fs : FS) : Bool × FS :=
  ((alookup fs.payloads key).isSome, fs)

def osExistsMeta (key : String) (fs : FS) : Bool × FS :=
  ((alookup fs.metas key).isSome, fs)

/-- `utils.stat_or_warn` + `utils._get_last_modified` on the payload
file: the stored mtime, or the epoch-0 sentinel if the file cannot be
stat-ed. -/
def osLastModifiedPayload (key : String) (fs : FS) : Int × FS :=
  (match alookup fs.payloads key with
   | some pf => pf.mtime
   | none => 0, fs)

/-- `open(file_path_metadata, 'rb')` + `pickle.load`: the stored
metadata record (`none` when the file is missing — the code only reads
after an existence check). -/
def osReadMeta (key : String) (fs : FS) : Option Metadata × FS :=
  (match alookup fs.metas key with
   | some mf => some mf.meta
   | none => none, fs)

def osReadPayload (key : String) (fs : FS) : Option (List Nat) × FS :=
  (match alookup fs.payloads key with
   | some pf => some pf.content
   | none => none, fs)

/-- `utils.remove_or_warn`: missing files are tolerated. -/
def osRemoveBoth (key : String) (fs : FS) : FS :=
  { payloads := aremove fs.payloads key, metas := aremove fs.metas key }

/-- Result of shipped `RawFSBackend.get`: a miss (`NO_VALUE`), a
`CachedValue(file, dogpile_metadata)`, or a bare file.  The file is
rendered by its bytes and the position `seek`-ed to. -/
inductive GetResult where
  | noValue
  | cachedValue (content : List Nat) (pos : Nat) (meta : PyVal)
  | fileValue (content : List Nat) (pos : Nat)
deriving DecidableEq

/-- Shipped `RawFSBackend.get(key)` (backend.py lines 111–133), under the
per-key rw lock (acquisition is a serialization point and does not touch
the values directory):

1. miss when the payload or the metadata file is missing;
2. when `expiration_time` is configured, miss when
   `last_modified < now - expiration_time`;
3. read the metadata record, open the payload, seek to
   `metadata.original_file_offset`;
4. wrap in `CachedValue` iff `metadata.dogpile_metadata is not None`.

`ttl` is `expiration_time.total_seconds()`; `now` is the `time.time()`
sample taken on entry. -/
def rawGet (ttl : Option Int) (now : Int) (key : String) (fs : FS) :
    GetResult × FS :=
  let (existsP, fs1) := osExistsPayload key fs
  let (existsM, fs2) := osExistsMeta key fs1
  if ¬existsP ∨ ¬existsM then (.noValue, fs2)
  else
    let (lastModified, fs3) := osLastModifiedPayload key fs2
    let expired : Bool := match ttl with
      | some t => decide (lastModified < now - t)
      | none => false
    if expired then (.noValue, fs3)
    else
      let (md, fs4) := osReadMeta key fs3
      match md with
      | none => (.noValue, fs4)
      | some m =>
        let (content, fs5) := osReadPayload key fs4
        match content with
        | none => (.noValue, fs5)
        | some bytes =>
          if m.dogpile_metadata ≠ .pynone then
            (.cachedValue bytes m.original_file_offset m.dogpile_metadata, fs5)
          else
            (.fileValue bytes m.original_file_offset, fs5)

/-! ### Pruning

`RawFSBackend.prune` (backend.py lines 221–243): list the directory,
TTL-expire, then evict LRU while the frozen size total of the still
listed keys exceeds `cache_size`, popping the tail (the oldest) of the
newest-first list on every iteration whether or not the non-blocking
delete succeeded. -/

/-- `_list_keys_with_desc`, restricted to what prune consumes: the listed
keys (suffix-stripped union of payload and metadata file names) with the
payload mtime (epoch-0 sentinel when the payload file is missing) and the
summed byte size of the two files. -/
def listKeys (fs : FS) : List String :=
  (fs.payloads.map Prod.fst ++ fs.metas.map Prod.fst).dedup

def descLastModified (fs : FS) (key : String) : Int :=
  match alookup fs.payloads key with
  | some pf => pf.mtime
  | none => 0

def descSize (fs : FS) (key : String) : Nat :=
  (match alookup fs.payloads key with
   | some pf => pf.content.length
   | none => 0) +
  (match alookup fs.metas key with
   | some mf => mf.size
   | none => 0)

/-- `attempt_delete_key`: non-blocking acquire of the rw lock; on success
delete both files and release; otherwise leave the key alone.
`lockable key` says whether `acquire(blocking=False)` succeeds right now
for that key's lock. -/
def attemptDeleteKey (lockable : String → Bool) (key : String) (fs : FS) : FS :=
  if lockable key then osRemoveBoth key fs else fs

/-- The TTL pass: for every listed key whose `last_modified` is older
than `now - expiration_time`, attempt the delete and drop the key from
the working set.  Returns the mutated directory and the remaining keys. -/
def ttlPass (lockable : String → Bool) (cutoff : Int) (lm : String → Int) :
    List String → FS → FS × List String
  | [], fs => (fs, [])
  | k :: ks, fs =>
    if lm k ≥ cutoff then
      let (fs', rest) := ttlPass lockable cutoff lm ks fs
      (fs', k :: rest)
    else
      let (fs', rest) := ttlPass lockable cutoff lm ks (attemptDeleteKey lockable k fs)
      (fs', rest)

/-- Insertion into a newest-first list (`sorted(..., reverse=True)` by
`last_modified`). -/
def insertByNewest (lm : String → Int) (k : String) : List String → List String
  | [] => [k]
  | x :: xs => if lm k > lm x then k :: x :: xs else x :: insertByNewest lm k xs

def sortByNewest (lm : String → Int) : List String → List String
  | [] => []
  | x :: xs => insertByNewest lm x (sortByNewest lm xs)

def totalSize (size : String → Nat) (keys : List String) : Nat :=
  (keys.map size).sum

/-- The LRU loop of `prune`:

    while sum(sizes of keys_by_newest) > cache_size:
        key = keys_by_newest.pop()      # the oldest entry
        self.attempt_delete_key(key)

The returned number counts the pop-and-attempt-delete iterations.  Sizes
are the frozen ones from the listing; the sum is over the shrinking
list, so the loop ends at the latest when the list is empty (the summed
`Nat` sizes can then no longer exceed the budget). -/
def lruLoop (budget : Nat) (size : String → Nat) (lockable : String → Bool)
    (keys : List String) (fs : FS) : FS × Nat :=
  match keys with
  | [] => (fs, 0)
  | k :: ks =>
    if totalSize size (k :: ks) > budget then
      let key := (k :: ks).getLastD k
      let (fs', n) := lruLoop budget size lockable ((k :: ks).dropLast)
        (attemptDeleteKey lockable key fs)
      (fs', n + 1)
    else (fs, 0)
termination_by keys.length
decreasing_by
  simp only [List.length_dropLast, List.length_cons]
  omega

/-- `RawFSBackend.prune()`: sample `now`, list, TTL-pass, sort the
remaining keys newest first, and — unless `cache_size is None` — run the
LRU loop. -/
def prune (ttl : Option Int) (cacheSize : Option Nat)
    (lockable : String → Bool) (now : Int) (fs : FS) : FS :=
  let keys := listKeys fs
  let lm := descLastModified fs
  let sz := descSize fs
  let (fs1, remaining) :=
    match ttl with
    | some t => ttlPass lockable (now - t) lm keys fs
    | none => (fs, keys)
  let keysByNewest := sortByNewest lm remaining
  match cacheSize with
  | none => fs1
  | some budget => (lruLoop budget sz lockable keysByNewest fs1).1

/-- Shipped `RawFSBackend.set(key, value)` (backend.py lines 138–169):
sample `now`, `prune()`, unpack a `CachedValue` if one was passed,
record `original_file_offset = payload.tell()`, stage the payload bytes
(rename when `file_movable`, else copy from position 0 and seek back —
either way the stored payload is the full stream content and the
caller's position is preserved), pickle the `Metadata`, and under the rw
lock rename both temp files into place and `utime` them to `now`.
`metaSize` is the on-disk byte size of the pickled metadata record. -/
def rawSet (ttl : Option Int) (cacheSize : Option Nat)
    (lockable : String → Bool) (now : Int) (key : String)
    (content : List Nat) (tellPos : Nat) (dogpileMeta : PyVal)
    (metaSize : Nat) (fs : FS) : FS :=
  let fs1 := prune ttl cacheSize lockable now fs
  let m : Metadata := { original_file_offset := tellPos,
                        dogpile_metadata := dogpileMeta }
  { payloads := aupsert fs1.payloads key { content := content, mtime := now },
    metas := aupsert fs1.metas key { meta := m, size := metaSize, mtime := now } }

/-- `GenericFSBackend.set(key, value)` (backend.py lines 285–290): pickle
`value` into a fresh temp file, `seek(0)`, and delegate to the raw `set`
(with `file_movable = True`).  The temp file is not a `CachedValue`, so
the raw layer records `dogpile_metadata = None`, and its position — hence
the recorded `original_file_offset` — is 0. -/
def genericSet {α : Type} (encode : α → List Nat) (ttl : Option Int)
    (cacheSize : Option Nat) (lockable : String → Bool) (now : Int)
    (key : String) (v : α) (metaSize : Nat) (fs : FS) : FS :=
  rawSet ttl cacheSize lockable now key (encode v) 0 .pynone metaSize fs

/-- Result of `GenericFSBackend.get`. -/
inductive GenGetResult (α : Type) where
  | noValue
  | value (v : α)
  | raisedErr
deriving DecidableEq

/-- `GenericFSBackend.get(key)` (backend.py lines 292–299): delegate to
the raw `get`; on `NO_VALUE` answer `NO_VALUE`; otherwise
`pickle.load(value_file)` from the file's current position and close it.
(`pickle.load` of a `CachedValue` object — impossible via
`GenericFSBackend.set` — would raise; modelled by `raisedErr`, as is a
decode failure.) -/
def genericGet {α : Type} (decode : List Nat → Option α) (ttl : Option Int)
    (now : Int) (key : String) (fs : FS) : GenGetResult α × FS :=
  let (r, fs') := rawGet ttl now key fs
  match r with
  | .noValue => (.noValue, fs')
  | .cachedValue _ _ _ => (.raisedErr, fs')
  | .fileValue bytes pos =>
    match decode (bytes.drop pos) with
    | some v => (.value v, fs')
    | none => (.raisedErr, fs')

/-! ### Legacy metadata handling (`dogpile_cache_fs_backend/backend.py`)

`FSBackend.set` decides the kind with `is_file(payload)` and builds the
three-field `Metadata`; `FSBackend.get` branches on `metadata.type`. -/

/-- The metadata record built by legacy `FSBackend.set` (lines 145–177):
for a non-file payload `type = 'value'` and `original_file_offset =
None`; for a file payload `type = 'file'` and `original_file_offset =
payload.tell()`. -/
def legacySetMetadata (isFile : Bool) (tellPos : Nat) (dogpileMeta : PyVal) :
    MetadataFS :=
  if isFile then
    { type := "file", original_file_offset := some tellPos,
      dogpile_metadata := dogpileMeta }
  else
    { type := "value", original_file_offset := none,
      dogpile_metadata := dogpileMeta }

/-- How legacy `FSBackend.get` (lines 110–140) interprets a metadata
record: `type == 'file'` opens the payload and seeks to the recorded
offset when it is not `None`; otherwise the payload is unpickled, wrapped
in a `CachedValue` iff `dogpile_metadata is not None`. -/
inductive LegacyInterp where
  | fileAt (pos : Nat)
  | valueWrapped
  | valuePlain
deriving DecidableEq

def legacyGetInterp (m : MetadataFS) : LegacyInterp :=
  if m.type = "file" then
    .fileAt (match m.original_file_offset with
             | some p => p
             | none => 0)
  else if m.dogpile_metadata ≠ .pynone then .valueWrapped
  else .valuePlain

/-- A concrete values directory holding one entry for key `"k"`: payload
byte `[7]` and metadata, both written at time 0. -/
def fsOne : FS :=
  { payloads := [("k", { content := [7], mtime := 0 })],
    metas := [("k", { meta := { original_file_offset := 0,
                                dogpile_metadata := .pynone },
                      size := 9, mtime := 0 })] }

/-! ## Key hashing

`_key_to_offset` from `dogpile_cache_fs_backend/utils.py` (lines 64–68;
the shipped backend imports an identical helper from its own `utils`):

    def _key_to_offset(key, start=0, end=sys.maxsize):
        hash_ = hashlib.sha1(key.encode('utf-8')).digest()
        offset_from_0 = (int(codecs.encode(hash_, 'hex'), 16) % (end - start))
        return start + offset_from_0

`hashlib.sha1` is the standard SHA-1 (FIPS 180) implemented below over
byte lists, with 32-bit words as `Nat` reduced mod `2^32`.
`str.encode('utf-8')` is the standard UTF-8 encoding of the key's
unicode scalar values.  `sys.maxsize` is `2^63 - 1` on CPython for a
64-bit platform — the only platform the spec contemplates, since it
puts offsets in a 64-bit range. -/

def sysMaxsize : Nat := 9223372036854775807

/-- UTF-8 encoding of one unicode scalar value (Python
`chr.encode('utf-8')`). -/
def utf8Char (c : Char) : List Nat :=
  let n := c.toNat
  if n < 0x80 then [n]
  else if n < 0x800 then
    [0xC0 ||| (n >>> 6), 0x80 ||| (n &&& 0x3F)]
  else if n < 0x10000 then
    [0xE0 ||| (n >>> 12), 0x80 ||| ((n >>> 6) &&& 0x3F), 0x80 ||| (n &&& 0x3F)]
  else
    [0xF0 ||| (n >>> 18), 0x80 ||| ((n >>> 12) &&& 0x3F),
     0x80 ||| ((n >>> 6) &&& 0x3F), 0x80 ||| (n &&& 0x3F)]

/-- `key.encode('utf-8')`. -/
def utf8 (s : String) : List Nat :=
  s.data.foldl (fun acc c => acc ++ utf8Char c) []

/-- Rotate a 32-bit word left by `n`. -/
def rotl32 (n x : Nat) : Nat :=
  ((x <<< n) ||| (x >>> (32 - n))) % 4294967296

/-- The `n`-byte big-endian rendering of `v` (used for the SHA-1 length
field and for serializing the digest words). -/
def beBytes : Nat → Nat → List Nat
  | 0, _ => []
  | n + 1, v => beBytes n (v / 256) ++ [v % 256]

/-- Big-endian interpretation of a byte string as an unsigned integer:
`int(codecs.encode(bytes, 'hex'), 16)` composes to exactly this. -/
def bytesToNatBE (bs : List Nat) : Nat :=
  bs.foldl (fun acc b => acc * 256 + b) 0

/-- SHA-1 message padding: append `0x80`, zero-pad to 56 mod 64, then the
bit length as 8 big-endian bytes. -/
def sha1Pad (msg : List Nat) : List Nat :=
  let l := msg.length
  let k := (56 + 64 - ((l + 1) % 64)) % 64
  msg ++ [0x80] ++ List.replicate k 0 ++ beBytes 8 (l * 8)

/-- The first 16 words (big-endian) of a 64-byte chunk. -/
def chunkWords : List Nat → List Nat
  | b0 :: b1 :: b2 :: b3 :: rest =>
    (((b0 * 256 + b1) * 256 + b2) * 256 + b3) :: chunkWords rest
  | _ => []

/-- Extend the message schedule by `n` further words (structural on `n`
so that the kernel can evaluate it). -/
def sha1ExtendGo : Nat → Array Nat → Array Nat
  | 0, w => w
  | n + 1, w =>
    let i := w.size
    sha1ExtendGo n
      (w.push (rotl32 1
        ((w.getD (i - 3) 0) ^^^ (w.getD (i - 8) 0) ^^^
         (w.getD (i - 14) 0) ^^^ (w.getD (i - 16) 0))))

/-- Extend the 16 chunk words to the 80-word message schedule. -/
def sha1Extend (w : Array Nat) : Array Nat := sha1ExtendGo (80 - w.size) w

def sha1F (i b c d : Nat) : Nat :=
  if i < 20 then (b &&& c) ||| ((b ^^^ 0xFFFFFFFF) &&& d)
  else if i < 40 then b ^^^ c ^^^ d
  else if i < 60 then (b &&& c) ||| (b &&& d) ||| (c &&& d)
  else b ^^^ c ^^^ d

def sha1K (i : Nat) : Nat :=
  if i < 20 then 0x5A827999
  else if i < 40 then 0x6ED9EBA1
  else if i < 60 then 0x8F1BBCDC
  else 0xCA62C1D6

/-- `n` rounds over one chunk starting at round `i` (structural on `n`). -/
def sha1RoundsGo (w : Array Nat) (i : Nat) :
    Nat → Nat × Nat × Nat × Nat × Nat → Nat × Nat × Nat × Nat × Nat
  | 0, st => st
  | n + 1, st =>
    let (a, b, c, d, e) := st
    let tmp := (rotl32 5 a + sha1F i b c d + e + sha1K i + w.getD i 0) % 4294967296
    sha1RoundsGo w (i + 1) n (tmp, a, rotl32 30 b, c, d)

/-- The 80 SHA-1 rounds over one chunk. -/
def sha1Rounds (w : Array Nat) (st : Nat × Nat × Nat × Nat × Nat) :
    Nat × Nat × Nat × Nat × Nat :=
  sha1RoundsGo w 0 80 st

/-- Compress one 64-byte chunk into the running state. -/
def sha1Compress (h : Nat × Nat × Nat × Nat × Nat) (chunk : List Nat) :
    Nat × Nat × Nat × Nat × Nat :=
  let w := sha1Extend (Array.mk (chunkWords chunk))
  let (h0, h1, h2, h3, h4) := h
  let (a, b, c, d, e) := sha1Rounds w h
  ((h0 + a) % 4294967296, (h1 + b) % 4294967296, (h2 + c) % 4294967296,
   (h3 + d) % 4294967296, (h4 + e) % 4294967296)

/-- Split a padded message into 64-byte chunks. -/
def chunks64Go : Nat → List Nat → List (List Nat)
  | _, [] => []
  | 0, l => [l]
  | fuel + 1, l =>
    if 64 < l.length then l.take 64 :: chunks64Go fuel (l.drop 64) else [l]

def chunks64 (l : List Nat) : List (List Nat) := chunks64Go l.length l

/-- `hashlib.sha1(msg).digest()`: the 20-byte SHA-1 digest. -/
def sha1 (msg : List Nat) : List Nat :=
  let init : Nat × Nat × Nat × Nat × Nat :=
    (0x67452301, 0xEFCDAB89, 0x98BADCFE, 0x10325476, 0xC3D2E1F0)
  let (h0, h1, h2, h3, h4) := (chunks64 (sha1Pad msg)).foldl sha1Compress init
  beBytes 4 h0 ++ beBytes 4 h1 ++ beBytes 4 h2 ++ beBytes 4 h3 ++ beBytes 4 h4

/-- One lowercase hex digit (what `codecs.encode(_, 'hex')` emits). -/
def hexDigitChar (n : Nat) : Char :=
  if n < 10 then Char.ofNat (48 + n) else Char.ofNat (87 + n)

/-- `codecs.encode(bytes, 'hex')` as a character list. -/
def bytesToHexChars (bs : List Nat) : List Char :=
  bs.foldr (fun b acc => hexDigitChar (b / 16) :: hexDigitChar (b % 16) :: acc) []

/-- The numeric value of one hex digit, as `int(_, 16)` reads it. -/
def hexDigitVal (c : Char) : Nat :=
  if 97 ≤ c.toNat then c.toNat - 87 else c.toNat - 48

/-- `int(hexstring, 16)`. -/
def hexToNat (cs : List Char) : Nat :=
  cs.foldl (fun acc c => acc * 16 + hexDigitVal c) 0

/-- `_key_to_offset(key)` with the default `start=0, end=sys.maxsize`. -/
def keyToOffset (key : String) : Nat :=
  let hashBytes := sha1 (utf8 key)
  let offsetFrom0 := hexToNat (bytesToHexChars hashBytes) % (sysMaxsize - 0)
  0 + offsetFrom0

/-- The spec's formula for the key offset, written from the spec's words
(`offset(key) = big_endian_uint(SHA1(utf8(key))) mod 2^63`), for
comparison with the source's `keyToOffset`. -/
def specKeyOffset (key : String) : Nat :=
  bytesToNatBE (sha1 (utf8 key)) % 2 ^ 63

instance (s : LockSt) : Decidable (cleanLock s) := by
  unfold cleanLock; infer_instance

/-- A concrete freshly constructed lock (file handle 1, offset 5, created
by pid 7), used to evaluate the lock operations at explicit inputs. -/
def lock0 : LockSt :=
  { file := 1, offset := 5, owner := none, ownerCount := 0, counter := 0,
    pid := 7, osLocked := false, osCalls := [] }

set_option maxRecDepth 8000

/-! # Theorems -/

/-! ## Sanity: the SHA-1 model meets the standard test vector -/

theorem sha1_test_vector_abc :
    sha1 (utf8 "abc") =
      [0xa9, 0x99, 0x3e, 0x36, 0x47, 0x06, 0x81, 0x6a, 0xba, 0x3e,
       0x25, 0x71, 0x78, 0x50, 0xc2, 0x6c, 0x9c, 0xd0, 0xd8, 0x9d] := by
  decide

/-! ## C1 — the key-to-offset function -/

theorem beBytes_lt (n : Nat) : ∀ v, ∀ b ∈ beBytes n v, b < 256 := by
  induction n with
  | zero => intro v b hb; simp [beBytes] at hb
  | succ n ih =>
    intro v b hb
    simp only [beBytes, List.mem_append, List.mem_singleton] at hb
    rcases hb with hb | hb
    · exact ih _ b hb
    · subst hb; exact Nat.mod_lt _ (by norm_num)

theorem sha1_bytes_lt (msg : List Nat) : ∀ b ∈ sha1 msg, b < 256 := by
  intro b hb
  unfold sha1 at hb
  simp only [List.mem_append] at hb
  rcases hb with ((((h | h) | h) | h) | h) <;> exact beBytes_lt 4 _ b h

theorem hexDigit_roundtrip (n : Nat) (h : n < 16) :
    hexDigitVal (hexDigitChar n) = n := by
  interval_cases n <;> decide

theorem hexChars_foldl (bs : List Nat) (hbs : ∀ b ∈ bs, b < 256) :
    ∀ acc, List.foldl (fun a c => a * 16 + hexDigitVal c) acc (bytesToHexChars bs) =
      List.foldl (fun a b => a * 256 + b) acc bs := by
  induction bs with
  | nil => intro acc; rfl
  | cons b bs ih =>
    intro acc
    have hb : b < 256 := hbs b (List.mem_cons_self b bs)
    have hdiv : b / 16 < 16 := Nat.div_lt_of_lt_mul (by omega)
    have hmod : b % 16 < 16 := Nat.mod_lt _ (by norm_num)
    simp only [bytesToHexChars, List.foldr_cons, List.foldl_cons]
    rw [show (List.foldr
      (fun b acc => hexDigitChar (b / 16) :: hexDigitChar (b % 16) :: acc)
      ([] : List Char) bs) = bytesToHexChars bs from rfl]
    rw [ih (fun x hx => hbs x (List.mem_cons_of_mem b hx))]
    congr 1
    rw [hexDigit_roundtrip _ hdiv, hexDigit_roundtrip _ hmod]
    have := Nat.div_add_mod b 16
    omega

theorem hexToNat_bytesToHexChars (bs : List Nat) (hbs : ∀ b ∈ bs, b < 256) :
    hexToNat (bytesToHexChars bs) = bytesToNatBE bs := by
  unfold hexToNat bytesToNatBE
  exact hexChars_foldl bs hbs 0

/-- Claim C1 (amended): `_key_to_offset` is a pure function of the key and
returns `big_endian_uint(SHA1(utf8(key))) mod (2^63 - 1)` — the modulus
is `sys.maxsize = 2^63 - 1`, not `2^63` — so the offset lies in
`[0, 2^63 - 1)`, a strict subset of the claimed `[0, 2^63)`. -/
theorem keyToOffset_spec (key : String) :
    keyToOffset key = bytesToNatBE (sha1 (utf8 key)) % (2 ^ 63 - 1) ∧
    keyToOffset key < 2 ^ 63 - 1 ∧ keyToOffset key < 2 ^ 63 := by
  have hmod : keyToOffset key = bytesToNatBE (sha1 (utf8 key)) % (2 ^ 63 - 1) := by
    show 0 + hexToNat (bytesToHexChars (sha1 (utf8 key))) % (sysMaxsize - 0) = _
    rw [hexToNat_bytesToHexChars _ (sha1_bytes_lt _)]
    unfold sysMaxsize
    norm_num
  refine ⟨hmod, ?_, ?_⟩
  · rw [hmod]; exact Nat.mod_lt _ (by norm_num)
  · rw [hmod]
    have := Nat.mod_lt (bytesToNatBE (sha1 (utf8 key))) (y := 2 ^ 63 - 1) (by norm_num)
    omega

/-- Claim C1, counterexample to the claim as stated: for the key `"a"`
the source's offset differs from `big_endian_uint(SHA1(utf8(key))) mod
2^63` (the source reduces modulo `sys.maxsize = 2^63 - 1`). -/
theorem keyToOffset_counterexample :
    keyToOffset "a" = 3401971328412038225 ∧
    specKeyOffset "a" = 4173406296385939384 ∧
    keyToOffset "a" ≠ specKeyOffset "a" := by
  refine ⟨by decide, by decide, ?_⟩
  intro h
  rw [show keyToOffset "a" = 3401971328412038225 from by decide,
      show specKeyOffset "a" = 4173406296385939384 from by decide] at h
  exact absurd h (by decide)

/-! ## C10 — the lock constructor rejects missing arguments -/

/-- Claim C10: constructing a `RangedFileReentrantLock` with a `None`
file or a `None` offset raises `ValueError`; a lock object is only ever
produced from an actual file handle and an actual byte offset, which it
stores. -/
theorem lockInit_spec (f o : Option Nat) (pid : Nat) :
    lockInit none o pid = .error .valueError ∧
    lockInit f none pid = .error .valueError ∧
    (∀ l : LockSt, lockInit f o pid = .ok l →
      (∃ ff, f = some ff ∧ l.file = ff) ∧ (∃ oo, o = some oo ∧ l.offset = oo)) := by
  refine ⟨?_, ?_, ?_⟩
  · cases o <;> rfl
  · cases f <;> rfl
  · intro l hl
    cases f with
    | none => exact absurd hl (by simp [lockInit])
    | some ff =>
      cases o with
      | none => exact absurd hl (by simp [lockInit])
      | some oo =>
        simp only [lockInit, Except.ok.injEq] at hl
        subst hl
        exact ⟨⟨ff, rfl, rfl⟩, ⟨oo, rfl, rfl⟩⟩

/-- Witness for C10: `lockInit` applied to the concrete arguments
`some 1`, `some 5`, pid 7 produces `lock0`, which indeed stores both. -/
theorem lockInit_spec_witness :
    (∃ ff, (some 1 : Option Nat) = some ff ∧ lock0.file = ff) ∧
    (∃ oo, (some 5 : Option Nat) = some oo ∧ lock0.offset = oo) :=
  (lockInit_spec (some 1) (some 5) 7).2.2 lock0 rfl

/-! ## C9 — unmatched release: the assertion and the counter -/

/-- Claim C9 (amended): `release()` invoked on a lock whose hold counter
is zero first writes `-1` into `_counter` and then fails the `assert`;
the raised `AssertionError` prevents everything after the assert, so no
`lockf(LOCK_UN)` is issued and the OS byte-range lock state is
untouched.  (The claim's words "the counter never becomes negative" are
refuted by `lockRelease_counterexample`: the attribute does reach `-1`;
what the assertion protects is the OS lock, not the attribute.) -/
theorem lockRelease_assert_guard (s : LockSt) (tid curPid : Nat)
    (hpid : curPid = s.pid) (h0 : s.counter = 0) :
    lockRelease s tid curPid = .raised .assertionError { s with counter := -1 } ∧
    ({ s with counter := -1 } : LockSt).osCalls = s.osCalls ∧
    ({ s with counter := -1 } : LockSt).osLocked = s.osLocked := by
  subst hpid
  refine ⟨?_, rfl, rfl⟩
  simp [lockRelease, h0]

/-- Witness for C9: the amended theorem evaluated on the concrete fresh
lock `lock0`. -/
theorem lockRelease_assert_guard_witness :
    lockRelease lock0 3 7 = .raised .assertionError { lock0 with counter := -1 } ∧
    ({ lock0 with counter := -1 } : LockSt).osCalls = lock0.osCalls ∧
    ({ lock0 with counter := -1 } : LockSt).osLocked = lock0.osLocked :=
  lockRelease_assert_guard lock0 3 7 rfl rfl

/-- Counterexample for C9 as stated: after an unmatched `release()` on
the concrete fresh lock the internal hold counter *is* negative (the
decrement is written before the assertion fires), even though no OS
unlock was issued. -/
theorem lockRelease_counterexample :
    lockRelease lock0 3 7 = .raised .assertionError { lock0 with counter := -1 } ∧
    ({ lock0 with counter := -1 } : LockSt).counter < 0 ∧
    ({ lock0 with counter := -1 } : LockSt).osCalls = lock0.osCalls := by
  refine ⟨?_, by decide, rfl⟩
  simp [lockRelease, lock0]

/-! ## C5 — reentrancy discipline of the lock -/

theorem stepAcq_clean (s : LockSt) (tid : Nat) (h : cleanLock s) :
    stepAcq tid s = heldState s tid 1 := by
  obtain ⟨how, hoc, hc, hol⟩ := h
  simp [stepAcq, lockAcquire, heldState, how, hoc, hc, hol]

theorem stepAcq_held (s : LockSt) (tid n : Nat) (hn : 1 ≤ n) :
    stepAcq tid (heldState s tid n) = heldState s tid (n + 1) := by
  have hne : ((n : Int)) ≠ 0 := by exact_mod_cast Nat.one_le_iff_ne_zero.mp hn
  simp [stepAcq, lockAcquire, heldState, hne]

theorem acqIter (s : LockSt) (tid : Nat) (h : cleanLock s) :
    ∀ n, (stepAcq tid)^[n + 1] s = heldState s tid (n + 1) := by
  intro n
  induction n with
  | zero => simpa using stepAcq_clean s tid h
  | succ n ih =>
    rw [Function.iterate_succ_apply', ih]
    exact stepAcq_held s tid (n + 1) (by omega)

theorem stepRel_held (s : LockSt) (tid n : Nat) (hn : 2 ≤ n) :
    stepRel tid (heldState s tid n) = heldState s tid (n - 1) := by
  have h1 : ¬((n : Int) - 1 < 0) := by omega
  have h2 : (0 : Int) < (n : Int) - 1 := by omega
  have h3 : ¬(n ≤ 1) := by omega
  simp [stepRel, lockRelease, heldState, threadRelease, h1, h2, h3]
  omega

theorem stepRel_last (s : LockSt) (tid : Nat) (h : cleanLock s) :
    stepRel tid (heldState s tid 1) =
      { s with osCalls := s.osCalls ++ [.lockEx, .unlock] } := by
  obtain ⟨how, hoc, hc, hol⟩ := h
  simp [stepRel, lockRelease, heldState, threadRelease, how, hoc, hc, hol]

theorem relIter (s : LockSt) (tid : Nat) :
    ∀ k n, k < n → (stepRel tid)^[k] (heldState s tid n) = heldState s tid (n - k) := by
  intro k
  induction k with
  | zero => intro n _; simp
  | succ k ih =>
    intro n hk
    rw [Function.iterate_succ_apply, stepRel_held s tid n (by omega)]
    rw [ih (n - 1) (by omega)]
    congr 1
    omega

/-- Claim C5: a thread `tid` that already holds a
`RangedFileReentrantLock` reacquires it immediately — for any blocking
mode and whatever the kernel would answer — and that only bumps the
counter (no OS request is issued: the `osCalls` log is untouched); from a
clean lock, `n` acquires followed by `k < n` releases leave the lock held
with counter `n - k` and exactly one byte-range request issued, and the
`n`-th release returns the object to the clean state having issued
exactly one `lockf(LOCK_EX)` and one `lockf(LOCK_UN)` — the OS lock is
taken only on the 0→1 transition and dropped only on the 1→0
transition. -/
theorem reentrant_lock_spec :
    (∀ (s : LockSt) (tid : Nat) (b : Bool) (os : OsOutcome),
       s.owner = some tid → 0 < s.counter →
       lockAcquire s tid s.pid b os =
         .ret true { s with ownerCount := s.ownerCount + 1,
                            counter := s.counter + 1 }) ∧
    (∀ (s : LockSt) (tid : Nat) (n k : Nat), cleanLock s → k < n →
       (stepRel tid)^[k] ((stepAcq tid)^[n] s) = heldState s tid (n - k)) ∧
    (∀ (s : LockSt) (tid : Nat) (n : Nat), cleanLock s → 0 < n →
       (stepRel tid)^[n] ((stepAcq tid)^[n] s) =
         { s with osCalls := s.osCalls ++ [.lockEx, .unlock] }) := by
  refine ⟨?_, ?_, ?_⟩
  · intro s tid b os how hc
    have hne : s.counter ≠ 0 := ne_of_gt hc
    simp [lockAcquire, how, hne]
  · intro s tid n k hcl hk
    obtain ⟨m, rfl⟩ : ∃ m, n = m + 1 := ⟨n - 1, by omega⟩
    rw [acqIter s tid hcl m]
    exact relIter s tid k (m + 1) hk
  · intro s tid n hcl hn
    obtain ⟨m, rfl⟩ : ∃ m, n = m + 1 := ⟨n - 1, by omega⟩
    rw [acqIter s tid hcl m]
    rw [Function.iterate_succ_apply']
    rw [relIter s tid m (m + 1) (by omega)]
    have : m + 1 - m = 1 := by omega
    rw [this]
    exact stepRel_last s tid hcl

/-- Witness for C5 at concrete inputs: reacquiring the concretely held
`lock0` bumps only the counter, and 2 acquires + 2 releases on `lock0`
return it to clean having issued exactly one lock and one unlock
request. -/
theorem reentrant_lock_spec_witness :
    lockAcquire (heldState lock0 3 1) 3 (heldState lock0 3 1).pid true .ok =
      .ret true { heldState lock0 3 1 with
                  ownerCount := (heldState lock0 3 1).ownerCount + 1,
                  counter := (heldState lock0 3 1).counter + 1 } ∧
    (stepRel 3)^[1] ((stepAcq 3)^[2] lock0) = heldState lock0 3 (2 - 1) ∧
    (stepRel 3)^[2] ((stepAcq 3)^[2] lock0) =
      { lock0 with osCalls := lock0.osCalls ++ [.lockEx, .unlock] } :=
  ⟨reentrant_lock_spec.1 (heldState lock0 3 1) 3 true .ok rfl (by decide),
   reentrant_lock_spec.2.1 lock0 3 2 1 (by decide) (by decide),
   reentrant_lock_spec.2.2 lock0 3 2 (by decide) (by decide)⟩

/-! ## C4 — non-blocking acquire never sleeps; the legacy variant leaks
the mutex -/

/-- Claim C4: the shipped `acquire(blocking=False)` can never sleep (no
input yields the `blocked` outcome); on a clean lock whose byte range is
held elsewhere it returns `False` with the object fully unlocked again
(the thread mutex taken half-way is released), and a kernel
`EDEADLK` is re-raised to the caller, also with the mutex released.  The
legacy `dogpile_cache_fs_backend` `acquire`, evaluated at the very same
situation, returns `False` while *keeping* the intra-process mutex
(owner and recursion count stay set): the code bug behind the claim's
status. -/
theorem nonblocking_acquire_spec :
    (∀ (s : LockSt) (tid curPid : Nat) (os : OsOutcome),
       lockAcquire s tid curPid false os ≠ .blocked) ∧
    (∀ (s : LockSt) (tid : Nat), cleanLock s →
       lockAcquire s tid s.pid false .contended =
         .ret false { s with osCalls := s.osCalls ++ [.lockEx] } ∧
       lockAcquire s tid s.pid false .edeadlk =
         .raised (.ioError .edeadlk) { s with osCalls := s.osCalls ++ [.lockEx] }) ∧
    legacyLockAcquire lock0 3 false .contended =
      .ret false { lock0 with owner := some 3, ownerCount := 1,
                              osCalls := [.lockEx] } := by
  refine ⟨?_, ?_, by decide⟩
  · intro s tid curPid os
    cases os <;> simp [lockAcquire, threadRelease] <;> split_ifs <;> simp
  · intro s tid hcl
    obtain ⟨how, hoc, hc, hol⟩ := hcl
    constructor
    · simp [lockAcquire, threadRelease, how, hoc, hc, hol]
    · simp [lockAcquire, threadRelease, how, hoc, hc, hol]

/-- Witness for C4 at concrete inputs. -/
theorem nonblocking_acquire_spec_witness :
    lockAcquire lock0 3 9 false .ok ≠ .blocked ∧
    lockAcquire lock0 3 7 false .contended =
      .ret false { lock0 with osCalls := lock0.osCalls ++ [.lockEx] } :=
  ⟨nonblocking_acquire_spec.1 lock0 3 9 .ok,
   (nonblocking_acquire_spec.2.1 lock0 3 (by decide)).1⟩

/-! ## C3 — fork discipline of the two interning registries -/

/-- Claim C3 (amended): a lookup in either `ProcessLocalRegistry` from a
process whose pid differs from the recorded one first replaces the map
with a fresh empty one (and records the new pid), so a forked child never
receives a parent-created *lock object* — the object served is freshly
constructed (`lockId = nextLockId`) and stamped with the child's pid.
However, the lock-file *handle* inside it comes from `_open_file`'s
module-level `_registry` cache, which survives the fork: when that cache
already holds a handle for the path the child receives exactly that
(inherited, parent-opened) handle, and only on a cache miss is a new
file opened. -/
theorem registry_fork_spec (s : RegState) (path : String) (off : Nat)
    (h1 : s.lkPid ≠ some s.curPid) (h2 : s.flPid ≠ some s.curPid) :
    (locksGet path off s).1.lockId = s.nextLockId ∧
    (locksGet path off s).1.pid = s.curPid ∧
    (locksGet path off s).2.lkPid = some s.curPid ∧
    (∀ h, alookup s.modRegistry path = some h →
      (locksGet path off s).1.file = h) ∧
    (alookup s.modRegistry path = none →
      (locksGet path off s).1.file = s.nextHandle) := by
  unfold locksGet lockCreator fileLockGet openFile
  rw [if_pos h1]
  simp only [alookup]
  rw [if_pos (by simpa using h2)]
  simp only [alookup]
  cases halk : alookup s.modRegistry path <;> simp [halk]

/-- Witness for C3 at the concrete forked state `regChild`. -/
theorem registry_fork_spec_witness :
    (locksGet "rw.lock" 5 regChild).1.lockId = regChild.nextLockId ∧
    (locksGet "rw.lock" 5 regChild).1.pid = regChild.curPid ∧
    (locksGet "rw.lock" 5 regChild).2.lkPid = some regChild.curPid ∧
    (∀ h, alookup regChild.modRegistry "rw.lock" = some h →
      (locksGet "rw.lock" 5 regChild).1.file = h) ∧
    (alookup regChild.modRegistry "rw.lock" = none →
      (locksGet "rw.lock" 5 regChild).1.file = regChild.nextHandle) :=
  registry_fork_spec regChild "rw.lock" 5 (by decide) (by decide)

/-- Counterexample for C3 as stated: in the concrete parent/child
scenario (parent pid 1 interns the lock for `("rw.lock", 5)`, then forks
a child with pid 2), the child's lookup does hand back a *fresh lock
object* but reuses the parent's open lock-file handle from the surviving
module-level cache — the child receives an open lock-file handle created
by its parent (`file` component equal, and no new handle was opened),
contradicting the claim. -/
theorem registry_fork_counterexample :
    (locksGet "rw.lock" 5 (regFork 2 (locksGet "rw.lock" 5 (regInit 1)).2)).1.file =
      (locksGet "rw.lock" 5 (regInit 1)).1.file ∧
    (locksGet "rw.lock" 5 (regFork 2 (locksGet "rw.lock" 5 (regInit 1)).2)).2.nextHandle =
      (locksGet "rw.lock" 5 (regInit 1)).2.nextHandle ∧
    (locksGet "rw.lock" 5 (regFork 2 (locksGet "rw.lock" 5 (regInit 1)).2)).1.lockId ≠
      (locksGet "rw.lock" 5 (regInit 1)).1.lockId := by
  refine ⟨?_, ?_, ?_⟩ <;> decide

/-! ## C6 — `get` misses and never mutates the directory -/

/-- Claim C6: `RawFSBackend.get` answers `NO_VALUE` when the payload or
the metadata file is missing and, when a TTL is configured, when
`now - mtime(payload)` exceeds it (`mtime < now - ttl`); and in every
case — miss or hit — it leaves the values directory exactly as it found
it (it never deletes an expired entry). -/
theorem rawGet_miss_spec :
    (∀ (ttl : Option Int) (now : Int) (key : String) (fs : FS),
      (alookup fs.payloads key = none ∨ alookup fs.metas key = none) →
      rawGet ttl now key fs = (.noValue, fs)) ∧
    (∀ (t now : Int) (key : String) (fs : FS) (pf : PayloadFile),
      alookup fs.payloads key = some pf → pf.mtime < now - t →
      rawGet (some t) now key fs = (.noValue, fs)) ∧
    (∀ (ttl : Option Int) (now : Int) (key : String) (fs : FS),
      (rawGet ttl now key fs).2 = fs) := by
  refine ⟨?_, ?_, ?_⟩
  · intro ttl now key fs h
    rcases h with h | h <;>
      simp [rawGet, osExistsPayload, osExistsMeta, h]
  · intro t now key fs pf hp hexp
    cases hm : alookup fs.metas key with
    | none =>
      simp [rawGet, osExistsPayload, osExistsMeta, hm]
    | some mf =>
      simp [rawGet, osExistsPayload, osExistsMeta, osLastModifiedPayload,
            hp, hm, hexp]
  · intro ttl now key fs
    unfold rawGet osExistsPayload osExistsMeta osLastModifiedPayload
      osReadMeta osReadPayload
    rcases hp : alookup fs.payloads key with _ | pf <;>
      rcases hm : alookup fs.metas key with _ | mf
    · simp [hp, hm]
    · simp [hp, hm]
    · simp [hp, hm]
    · simp only [hp, hm, Option.isSome_some, not_true, or_self, if_false]
      split_ifs <;> rfl

/-- Witness for C6 at concrete inputs: a missing key misses on the empty
directory; the entry of `fsOne` (written at time 0) misses at time 100
under a 50-second TTL; and that very lookup hands the directory back
unchanged. -/
theorem rawGet_miss_spec_witness :
    rawGet none 0 "k" FS.empty = (.noValue, FS.empty) ∧
    rawGet (some 50) 100 "k" fsOne = (.noValue, fsOne) ∧
    (rawGet (some 50) 100 "k" fsOne).2 = fsOne :=
  ⟨rawGet_miss_spec.1 none 0 "k" FS.empty (Or.inl rfl),
   rawGet_miss_spec.2.1 50 100 "k" fsOne { content := [7], mtime := 0 }
     rfl (by decide),
   rawGet_miss_spec.2.2 (some 50) 100 "k" fsOne⟩

/-! ## C7 — the LRU pass terminates within the listing size -/

theorem lruLoop_le_aux (budget : Nat) (size : String → Nat)
    (lockable : String → Bool) :
    ∀ (n : Nat) (keys : List String), keys.length ≤ n → ∀ fs : FS,
      (lruLoop budget size lockable keys fs).2 ≤ keys.length := by
  intro n
  induction n with
  | zero =>
    intro keys hk fs
    cases keys with
    | nil => simp [lruLoop]
    | cons k ks => simp at hk
  | succ n ih =>
    intro keys hk fs
    cases keys with
    | nil => simp [lruLoop]
    | cons k ks =>
      rw [lruLoop]
      split_ifs with hover
      · have hlen : ((k :: ks).dropLast).length ≤ n := by
          simp only [List.length_dropLast, List.length_cons] at *
          omega
        have := ih ((k :: ks).dropLast)
          hlen (attemptDeleteKey lockable ((k :: ks).getLastD k) fs)
        simp only [List.length_dropLast, List.length_cons] at this ⊢
        omega
      · simp

/-- Claim C7: the LRU pass of `prune` — the loop that pops the oldest
entry off the newest-first list and attempts a non-blocking delete —
performs at most as many pop-and-attempt-delete iterations as the list
has entries, whatever `lockable` says (in particular when every
non-blocking acquisition fails and every delete attempt is a no-op). -/
theorem prune_lru_bound (budget : Nat) (size : String → Nat)
    (lockable : String → Bool) (keys : List String) (fs : FS) :
    (lruLoop budget size lockable keys fs).2 ≤ keys.length :=
  lruLoop_le_aux budget size lockable keys.length keys (Nat.le_refl _) fs

/-! ## C8 — generic round trip -/

theorem alookup_aupsert {κ α : Type} [DecidableEq κ]
    (l : List (κ × α)) (k : κ) (v : α) :
    alookup (aupsert l k v) k = some v := by
  simp [aupsert, alookup]

/-- Claim C8: on the generic backend, `get(K)` right after `set(K, V)`
returns `V` for every encodable value, up to serializer fidelity
(`decode ∘ encode = some`), provided the configured TTL has not already
elapsed between the two calls (`set` stamps the entry with its own
`now`). -/
theorem generic_roundtrip (α : Type) (encode : α → List Nat)
    (decode : List Nat → Option α)
    (hfid : ∀ v, decode (encode v) = some v)
    (ttl : Option Int) (cacheSize : Option Nat) (lockable : String → Bool)
    (now now2 : Int) (key : String) (v : α) (metaSize : Nat) (fs : FS)
    (httl : ∀ t, ttl = some t → ¬(now < now2 - t)) :
    (genericGet decode ttl now2 key
      (genericSet encode ttl cacheSize lockable now key v metaSize fs)).1 =
      .value v := by
  cases ttl with
  | none =>
    simp [genericGet, genericSet, rawSet, rawGet, osExistsPayload,
          osExistsMeta, osLastModifiedPayload, osReadMeta, osReadPayload,
          alookup_aupsert, hfid]
  | some t =>
    have hne := httl t rfl
    simp [genericGet, genericSet, rawSet, rawGet, osExistsPayload,
          osExistsMeta, osLastModifiedPayload, osReadMeta, osReadPayload,
          alookup_aupsert, hfid, hne]

/-- Witness for C8: the round trip evaluated at the concrete value 42
under key `"k"` on the empty directory with no TTL, a trivial serializer
pair, and every lock unavailable. -/
theorem generic_roundtrip_witness :
    (genericGet (fun l => l.head?) none 0 "k"
      (genericSet (fun n : Nat => [n]) none none (fun _ => false) 0 "k" 42 1
        FS.empty)).1 = .value 42 :=
  generic_roundtrip Nat (fun n => [n]) (fun l => l.head?) (fun _ => rfl)
    none none (fun _ => false) 0 0 "k" 42 1 FS.empty
    (fun _ ht => Option.noConfusion ht)

/-! ## C2 — the metadata record and its kind field -/

/-- Claim C2 (amended): in the *legacy* `dogpile_cache_fs_backend`
backend every stored metadata record carries `type ∈ {value, file}` with
`original_file_offset = payload.tell()` for `file` and `None` for
`value`, and `get` branches on that `type` (seeking to the recorded
offset in the file case).  The *shipped* `dogpile_filesystem` metadata
has no kind field at all: a `GenericFSBackend.set` (the value-kind path)
stores `original_file_offset = 0` — the pickled temp file's position
after `seek(0)`, not `None` — with `dogpile_metadata = None`, and the
shipped `get` decides the wrapping by `dogpile_metadata`, not by a
kind. -/
theorem metadata_kind_spec :
    (∀ (isFile : Bool) (tellPos : Nat) (dm : PyVal),
      ((legacySetMetadata isFile tellPos dm).type = "file" ∨
       (legacySetMetadata isFile tellPos dm).type = "value") ∧
      (legacySetMetadata isFile tellPos dm).original_file_offset =
        (if isFile then some tellPos else none) ∧
      legacyGetInterp (legacySetMetadata isFile tellPos dm) =
        (if isFile then .fileAt tellPos
         else if dm = .pynone then .valuePlain else .valueWrapped)) ∧
    (∀ (α : Type) (encode : α → List Nat) (ttl : Option Int)
       (cacheSize : Option Nat) (lockable : String → Bool) (now : Int)
       (key : String) (v : α) (metaSize : Nat) (fs : FS),
      alookup (genericSet encode ttl cacheSize lockable now key v metaSize
        fs).metas key =
        some { meta := { original_file_offset := 0,
                         dogpile_metadata := .pynone },
               size := metaSize, mtime := now }) := by
  constructor
  · intro isFile tellPos dm
    cases isFile <;> simp [legacySetMetadata, legacyGetInterp]
  · intro α encode ttl cacheSize lockable now key v metaSize fs
    simp [genericSet, rawSet, alookup_aupsert]

/-- Counterexample for C2 as stated: the metadata record stored by the
shipped generic (value-kind) backend for the concrete `set("k", 42)` on
an empty directory has no `type`/`kind` field at all, and its
`original_file_offset` is the integer 0 — the caller's stream position —
rather than null. -/
theorem metadata_kind_counterexample :
    alookup (genericSet (fun n : Nat => [n]) none none (fun _ => false) 0
        "k" 42 1 FS.empty).metas "k" =
      some { meta := { original_file_offset := 0,
                       dogpile_metadata := .pynone },
             size := 1, mtime := 0 } ∧
    ¬ recordHasKindField
      (Metadata.toRecord { original_file_offset := 0,
                           dogpile_metadata := .pynone }) ∧
    alookup (Metadata.toRecord { original_file_offset := 0,
                                 dogpile_metadata := .pynone })
        "original_file_offset" = some (.pyint 0) ∧
    (PyVal.pyint 0) ≠ .pynone := by
  refine ⟨by decide, ?_, by decide, by decide⟩
  rintro ⟨v, hv, -⟩
  rcases hv with hv | hv <;> simp [Metadata.toRecord, alookup] at hv
